import Mathlib

/-!
Verification of the tutor-dashboard lesson subsystem: the lesson store
(fetch, claim, type/today filtering), the date-range utilities, the
Dashboard month-window filter, and the Dashboard filter-selection state.

Instants at day precision are modelled as `Int` epoch milliseconds with
local time = UTC (the spec excludes timezone-correct calendar semantics).
The month-window calculator is modelled at month granularity by `MInstant`:
an absolute month number plus a millisecond offset within that month.
-/

/-- Lesson type classification, from `types.ts`: `Historic | Upcoming | Available`. -/
inductive LessonType where
  | Historic
  | Upcoming
  | Available
deriving DecidableEq, Repr

/-- Lesson status, from `types.ts`: `Completed | Confirmed | Available`. -/
inductive LessonStatus where
  | Completed
  | Confirmed
  | Available
deriving DecidableEq, Repr

/-- A lesson record, from the `Lesson` interface in `types.ts`.  The `date`
field is generic: `Int` (epoch milliseconds) for day-level reasoning and
`MInstant` (month-granularity instants) for the month-window calculator. -/
structure Lesson (D : Type) where
  id : String
  date : D
  type : LessonType
  subject : String
  students : List String
  tutor : Option String
  status : LessonStatus
deriving DecidableEq, Repr

/-- The filter selector, from `types.ts`: `LessonType | 'Today'`. -/
inductive LessonFilterType where
  | Today
  | ofType (t : LessonType)
deriving DecidableEq, Repr

/-- The authenticated user, from the `User` interface in `types.ts`. -/
structure User where
  id : String
  name : String
  email : String
deriving DecidableEq, Repr

/-- Milliseconds in one civil day. -/
def msPerDay : Int := 86400000

/-- Start of the day containing instant `t` (00:00:00.000), as in
`today.setHours(0, 0, 0, 0)` and date-fns `startOfDay`. -/
def startOfDay (t : Int) : Int := msPerDay * (t.fdiv msPerDay)

/-- End of the day containing instant `t` (23:59:59.999), as in date-fns
`endOfDay`. -/
def endOfDay (t : Int) : Int := startOfDay t + msPerDay - 1

/-- From `utils/index.ts` `getTodayRange`: start = `startOfDay(now)`,
end = `endOfDay(now)`. -/
def getTodayRange (now : Int) : Int × Int := (startOfDay now, endOfDay now)

/-- From `utils/index.ts` `isToday`: `start ≤ d ∧ d ≤ end` on today's range. -/
def isToday (d : Int) (now : Int) : Bool :=
  decide ((getTodayRange now).1 ≤ d) && decide (d ≤ (getTodayRange now).2)

/-- From `utils/index.ts` `filterLessonsByDateRange`: keep lessons with
`startDate ≤ lesson.date ∧ lesson.date ≤ endDate` (both comparisons from the
source's `lessonDate >= startDate && lessonDate <= endDate`). -/
def filterLessonsByDateRange {D : Type} [LE D] [DecidableRel (α := D) (· ≤ ·)]
    (lessons : List (Lesson D)) (startDate endDate : D) : List (Lesson D) :=
  lessons.filter fun lesson =>
    decide (startDate ≤ lesson.date) && decide (lesson.date ≤ endDate)

/-- From `utils/index.ts` `filterTodayLessons`: filter by today's range. -/
def filterTodayLessons (lessons : List (Lesson Int)) (now : Int) : List (Lesson Int) :=
  filterLessonsByDateRange lessons (getTodayRange now).1 (getTodayRange now).2

/-- Store state, from the `LessonState` interface in the lesson store:
the lesson collection, the `loading` flag and the `error` slot. -/
structure LessonState where
  lessons : List (Lesson Int)
  loading : Bool
  error : Option String
deriving DecidableEq, Repr

/-- First phase of `fetchLessonsData`: `set({ loading: true, error: null })`. -/
def fetchPending (st : LessonState) : LessonState :=
  { st with loading := true, error := none }

/-- From the store's `fetchLessonsData`.  The asynchronous
`fetchLessons()` call is modelled by the `svc` parameter: `ok data` for a
successful response, `error msg` for a failure (the store stores
`error.message`).  On success the collection is replaced wholesale and
`loading` returns to `false`; on failure the message lands in the `error`
slot, `loading` returns to `false`, and the collection is untouched. -/
def fetchLessonsData (st : LessonState) (svc : Except String (List (Lesson Int))) :
    LessonState :=
  match svc with
  | .ok data => { fetchPending st with lessons := data, loading := false }
  | .error msg => { fetchPending st with error := some msg, loading := false }

/-- A possibly-partial claim-service response, the `updatedLesson` value in
the store's `takeClass`.  Every field is optional: `none` models a field
absent from (or `null` in) the JSON response. -/
structure LessonResponse where
  id : Option String := none
  date : Option Int := none
  type : Option LessonType := none
  subject : Option String := none
  students : Option (List String) := none
  tutor : Option String := none
  status : Option LessonStatus := none
deriving DecidableEq, Repr

/-- JavaScript `a || b` on an optional string: an absent, `null` or empty
string falls through to the default. -/
def jsOrStr (v : Option String) (dflt : String) : String :=
  match v with
  | some s => if s = "" then dflt else s
  | none => dflt

/-- From the store's `takeClass`: `authState.user?.name || 'Unknown Tutor'`. -/
def currentUserName (user : Option User) : String :=
  jsOrStr (user.map User.name) "Unknown Tutor"

/-- The `finalLesson` merge in the store's `takeClass`: spread of the local
lesson then of the response (response fields override), then the explicit
overrides `type: updatedLesson.type || 'Upcoming'`,
`tutor: updatedLesson.tutor || currentUser`,
`status: updatedLesson.status || 'Confirmed'`,
`students: updatedLesson.students ?? lessonToTake.students ?? []` (the local
student list is total, so the trailing `?? []` never fires). -/
def mergeLesson (lessonToTake : Lesson Int) (updatedLesson : LessonResponse)
    (currentUser : String) : Lesson Int :=
  { id := updatedLesson.id.getD lessonToTake.id
    date := updatedLesson.date.getD lessonToTake.date
    type := updatedLesson.type.getD LessonType.Upcoming
    subject := updatedLesson.subject.getD lessonToTake.subject
    students := updatedLesson.students.getD lessonToTake.students
    tutor := some (jsOrStr updatedLesson.tutor currentUser)
    status := updatedLesson.status.getD LessonStatus.Confirmed }

/-- From the store's `takeClass`.  The guard looks for a lesson with the
given id AND `type === 'Available'`; when it fails the function throws
`'Lesson not found or not available'` before the service is consulted (the
result does not depend on `svc`).  The external `takeClassAPI` call is the
`svc` parameter; a service error is re-thrown unchanged.  On success the
merged lesson replaces every collection entry whose id matches. -/
def takeClass (st : LessonState) (user : Option User) (lessonId : String)
    (svc : Except String LessonResponse) : Except String LessonState :=
  match st.lessons.find? (fun lesson =>
      decide (lesson.id = lessonId) && decide (lesson.type = LessonType.Available)) with
  | none => Except.error "Lesson not found or not available"
  | some lessonToTake =>
    match svc with
    | Except.error e => Except.error e
    | Except.ok updatedLesson =>
      let currentUser := currentUserName user
      let finalLesson := mergeLesson lessonToTake updatedLesson currentUser
      Except.ok { st with lessons := st.lessons.map fun lesson =>
        if lesson.id = lessonId then finalLesson else lesson }

/-- From the store's `filteredLessons`.  The optional type filter: `'Today'`
keeps lessons with `startOfDay(now) ≤ date < startOfDay(now) + one day`
(the source's half-open `lessonDate >= today && lessonDate < tomorrow`);
a concrete type keeps lessons with `lesson.type === type`.  The optional
date range then intersects with `start ≤ date ≤ end` inclusive. -/
def filteredLessons (lessons : List (Lesson Int)) (ty : Option LessonFilterType)
    (dateRange : Option (Int × Int)) (now : Int) : List (Lesson Int) :=
  let f1 := match ty with
    | none => lessons
    | some LessonFilterType.Today =>
      let today := startOfDay now
      let tomorrow := today + msPerDay
      lessons.filter fun lesson =>
        decide (today ≤ lesson.date) && decide (lesson.date < tomorrow)
    | some (LessonFilterType.ofType t) =>
      lessons.filter fun lesson => decide (lesson.type = t)
  match dateRange with
  | none => f1
  | some (s, e) => f1.filter fun lesson =>
      decide (s ≤ lesson.date) && decide (lesson.date ≤ e)

/-- A month-granularity instant: `month` is the absolute month number
(year × 12 + month-of-year) and `ms` the millisecond offset within that
month.  Used to model the Dashboard's month-window calculation. -/
structure MInstant where
  month : Int
  ms : Int
deriving DecidableEq, Repr

/-- Chronological order on month-granularity instants (lexicographic). -/
instance : LE MInstant :=
  ⟨fun a b => a.month < b.month ∨ (a.month = b.month ∧ a.ms ≤ b.ms)⟩

instance : DecidableRel (α := MInstant) (· ≤ ·) := fun a b =>
  inferInstanceAs (Decidable (a.month < b.month ∨ (a.month = b.month ∧ a.ms ≤ b.ms)))

/-- Gregorian leap-year rule. -/
def isLeapYear (y : Int) : Bool :=
  (y % 4 == 0 && y % 100 != 0) || (y % 400 == 0)

/-- Number of days in absolute month `m` (month-of-year `m % 12`, with
0 = January, in year `m / 12`). -/
def daysInMonthOf (m : Int) : Int :=
  let y := m.ediv 12
  let mo := m.emod 12
  if mo = 1 then (if isLeapYear y then 29 else 28)
  else if mo = 3 ∨ mo = 5 ∨ mo = 8 ∨ mo = 10 then 30
  else 31

/-- Length of absolute month `m` in milliseconds. -/
def monthMs (m : Int) : Int := daysInMonthOf m * msPerDay

/-- date-fns `startOfMonth`: first instant of the instant's month. -/
def startOfMonth (d : MInstant) : MInstant := ⟨d.month, 0⟩

/-- date-fns `endOfMonth`: last millisecond of the instant's month. -/
def endOfMonth (d : MInstant) : MInstant := ⟨d.month, monthMs d.month - 1⟩

/-- From `utils/index.ts` `getMonthRange`: `startOfMonth` to `endOfMonth`. -/
def getMonthRange (d : MInstant) : MInstant × MInstant := (startOfMonth d, endOfMonth d)

/-- date-fns `subMonths`, modelled at month granularity.  The Dashboard only
applies it to `startOfMonth` values (`ms = 0`), where shifting the month
number and keeping the offset agrees exactly with date-fns (no day-of-month
clamping can occur on the first of a month). -/
def subMonths (d : MInstant) (k : Int) : MInstant := ⟨d.month - k, d.ms⟩

/-- date-fns `addMonths`, modelled at month granularity; see `subMonths`. -/
def addMonths (d : MInstant) (k : Int) : MInstant := ⟨d.month + k, d.ms⟩

namespace MONTH_FILTER

/-- `MONTH_FILTER.MONTHS_BACK` from `constants`: months shown before the
current month. -/
def MONTHS_BACK : Int := 5

/-- `MONTH_FILTER.MONTHS_FORWARD` from `constants`: months shown after the
current month. -/
def MONTHS_FORWARD : Int := 6

/-- `MONTH_FILTER.TOTAL_MONTHS` from `constants`. -/
def TOTAL_MONTHS : Int := 12

/-- `MONTH_FILTER.PAST_MONTHS_THRESHOLD` from `constants`: indices at or
below this are past (or current), above are future. -/
def PAST_MONTHS_THRESHOLD : Int := 5

end MONTH_FILTER

namespace DATE_FILTER

/-- `DATE_FILTER.CLEAR_MONTH_INDEX` from `constants`: sentinel clearing the
month filter. -/
def CLEAR_MONTH_INDEX : Int := -1

end DATE_FILTER

/-- The target-month computation inside `getFilteredLessonsByType`
(`Dashboard.tsx`): `currentMonth = startOfMonth(now)`; index at most
`PAST_MONTHS_THRESHOLD` → `subMonths(currentMonth, MONTHS_BACK − index)`,
otherwise `addMonths(currentMonth, index − MONTHS_BACK)`. -/
def monthWindowTarget (selectedMonth : Int) (now : MInstant) : MInstant :=
  let currentMonth := startOfMonth now
  if selectedMonth ≤ MONTH_FILTER.PAST_MONTHS_THRESHOLD then
    subMonths currentMonth (MONTH_FILTER.MONTHS_BACK - selectedMonth)
  else
    addMonths currentMonth (selectedMonth - MONTH_FILTER.MONTHS_BACK)

/-- The month-filter step of `getFilteredLessonsByType`: resolve the selected
index to a target month and keep lessons within `getMonthRange` of it. -/
def applyMonthFilter (lessons : List (Lesson MInstant)) (selectedMonth : Int)
    (now : MInstant) : List (Lesson MInstant) :=
  let r := getMonthRange (monthWindowTarget selectedMonth now)
  filterLessonsByDateRange lessons r.1 r.2

/-- The Dashboard's filter-selection state: `selectedMonth` and `dateRange`
`useState` slots. -/
structure FilterSel where
  selectedMonth : Option Int
  dateRange : Option (Int × Int)
deriving DecidableEq, Repr

/-- Initial Dashboard state: both `useState(null)`. -/
def initialFilterSel : FilterSel := ⟨none, none⟩

/-- `handleMonthChange` from `Dashboard.tsx`: the clear sentinel resets both
slots; any other index selects the month and clears the date range. -/
def handleMonthChange (st : FilterSel) (monthIndex : Int) : FilterSel :=
  if monthIndex = DATE_FILTER.CLEAR_MONTH_INDEX then ⟨none, none⟩
  else ⟨some monthIndex, none⟩

/-- `handleDateRangeChange` from `Dashboard.tsx`: a complete range selects it
and clears the month; an incomplete one only clears the range. -/
def handleDateRangeChange (st : FilterSel) (s e : Option Int) : FilterSel :=
  match s, e with
  | some a, some b => ⟨none, some (a, b)⟩
  | _, _ => ⟨st.selectedMonth, none⟩

/-- One UI filter-selection action. -/
inductive FilterAction where
  | monthChange (monthIndex : Int)
  | dateRangeChange (s e : Option Int)
deriving DecidableEq, Repr

/-- Dispatch one filter-selection action on the Dashboard state. -/
def applyFilterAction (st : FilterSel) : FilterAction → FilterSel
  | .monthChange i => handleMonthChange st i
  | .dateRangeChange s e => handleDateRangeChange st s e

/-- The mutual-exclusion invariant: the month index and the explicit date
range are never both set. -/
def filterMutex (st : FilterSel) : Prop :=
  st.selectedMonth = none ∨ st.dateRange = none

/-- Sample lesson used to instantiate theorems with hypotheses. -/
def sampleLesson : Lesson Int :=
  ⟨"L1", 0, LessonType.Available, "Subject", [], none, LessonStatus.Available⟩

/-- Sample lesson of type `Upcoming` (fails the claim guard). -/
def upcomingLesson : Lesson Int :=
  ⟨"L1", 0, LessonType.Upcoming, "Subject", ["Ann"], some "Sarah Tan", LessonStatus.Confirmed⟩

/-- Sample `Available` lesson (passes the claim guard). -/
def availableLesson : Lesson Int :=
  ⟨"L7", 100, LessonType.Available, "Python", [], none, LessonStatus.Available⟩

/-- Sample authenticated user. -/
def sampleUser : Option User := some ⟨"U1", "Sarah Tan", "sarah@example.com"⟩

/-- C1: when no lesson in the collection has the requested id with type
`Available`, `takeClass` fails with the "not found or not available" error
for EVERY possible service response `svc` — the result does not depend on
the service, modelling that no external call is issued — and, the result
being an error, no new collection is produced: the store is unchanged. -/
theorem takeClass_guard_fails (st : LessonState) (user : Option User) (lessonId : String)
    (svc : Except String LessonResponse)
    (h : ∀ l ∈ st.lessons, ¬(l.id = lessonId ∧ l.type = LessonType.Available)) :
    takeClass st user lessonId svc = Except.error "Lesson not found or not available" := by
  have hfind : st.lessons.find? (fun lesson =>
      decide (lesson.id = lessonId) && decide (lesson.type = LessonType.Available)) = none := by
    rw [List.find?_eq_none]
    intro x hx hcontra
    simp only [Bool.and_eq_true, decide_eq_true_eq] at hcontra
    exact h x hx hcontra
  unfold takeClass
  rw [hfind]

/-- Witness for C1: a collection holding only an `Upcoming` lesson with the
requested id rejects the claim even when the service would answer. -/
theorem takeClass_guard_fails_witness :
    takeClass ⟨[upcomingLesson], false, none⟩ none "L1" (Except.ok {}) =
      Except.error "Lesson not found or not available" :=
  takeClass_guard_fails ⟨[upcomingLesson], false, none⟩ none "L1" (Except.ok {}) (by decide)

/-- C2: when the guard finds an `Available` lesson `L0` with the given id and
the service succeeds, `takeClass` replaces the collection entries with that
id by `mergeLesson L0 resp currentUser`, and the merge obeys the stated
precedence: response fields present override the local lesson; `type`
defaults to `Upcoming`, `status` to `Confirmed`, `tutor` to the current
authenticated user's display name when omitted; `students` falls back to the
pre-claim list when the response provides none. -/
theorem takeClass_success_merge (st : LessonState) (user : Option User) (lessonId : String)
    (resp : LessonResponse) (L0 : Lesson Int)
    (h : st.lessons.find? (fun lesson =>
      decide (lesson.id = lessonId) && decide (lesson.type = LessonType.Available)) = some L0) :
    takeClass st user lessonId (Except.ok resp) =
      Except.ok { st with lessons := st.lessons.map fun lesson =>
        if lesson.id = lessonId then mergeLesson L0 resp (currentUserName user) else lesson } ∧
    (∀ t, resp.type = some t → (mergeLesson L0 resp (currentUserName user)).type = t) ∧
    (resp.type = none → (mergeLesson L0 resp (currentUserName user)).type = LessonType.Upcoming) ∧
    (∀ s, resp.status = some s → (mergeLesson L0 resp (currentUserName user)).status = s) ∧
    (resp.status = none →
      (mergeLesson L0 resp (currentUserName user)).status = LessonStatus.Confirmed) ∧
    (∀ s, resp.tutor = some s → s ≠ "" →
      (mergeLesson L0 resp (currentUserName user)).tutor = some s) ∧
    (resp.tutor = none →
      (mergeLesson L0 resp (currentUserName user)).tutor = some (currentUserName user)) ∧
    (∀ ss, resp.students = some ss → (mergeLesson L0 resp (currentUserName user)).students = ss) ∧
    (resp.students = none → (mergeLesson L0 resp (currentUserName user)).students = L0.students) ∧
    (∀ i, resp.id = some i → (mergeLesson L0 resp (currentUserName user)).id = i) ∧
    (resp.id = none → (mergeLesson L0 resp (currentUserName user)).id = L0.id) ∧
    (∀ d, resp.date = some d → (mergeLesson L0 resp (currentUserName user)).date = d) ∧
    (resp.date = none → (mergeLesson L0 resp (currentUserName user)).date = L0.date) ∧
    (∀ sb, resp.subject = some sb → (mergeLesson L0 resp (currentUserName user)).subject = sb) ∧
    (resp.subject = none → (mergeLesson L0 resp (currentUserName user)).subject = L0.subject) ∧
    (∀ u, user = some u → u.name ≠ "" → currentUserName user = u.name) := by
  refine ⟨?_, ?_, ?_, ?_, ?_, ?_, ?_, ?_, ?_, ?_, ?_, ?_, ?_, ?_, ?_, ?_⟩
  · unfold takeClass
    rw [h]
  · intro t ht; simp [mergeLesson, ht]
  · intro ht; simp [mergeLesson, ht]
  · intro s hs; simp [mergeLesson, hs]
  · intro hs; simp [mergeLesson, hs]
  · intro s hs hne; simp [mergeLesson, jsOrStr, hs, hne]
  · intro hs; simp [mergeLesson, jsOrStr, hs]
  · intro ss hs; simp [mergeLesson, hs]
  · intro hs; simp [mergeLesson, hs]
  · intro i hi; simp [mergeLesson, hi]
  · intro hi; simp [mergeLesson, hi]
  · intro d hd; simp [mergeLesson, hd]
  · intro hd; simp [mergeLesson, hd]
  · intro sb hsb; simp [mergeLesson, hsb]
  · intro hsb; simp [mergeLesson, hsb]
  · intro u hu hne; simp [currentUserName, jsOrStr, hu, hne]

/-- Witness for C2: claiming the sample `Available` lesson with an empty
service response yields a merged lesson of type `Upcoming`. -/
theorem takeClass_success_merge_witness :
    (mergeLesson availableLesson {} (currentUserName sampleUser)).type = LessonType.Upcoming :=
  (takeClass_success_merge ⟨[availableLesson], false, none⟩ sampleUser "L7" {} availableLesson
    (by decide)).2.2.1 rfl

/-- C3: when the guard passes (the collection holds an `Available` lesson
with the id) and the external claim service fails with error `e`,
`takeClass` re-throws exactly `e`, and — the result being an error — no new
collection is produced: the store state is exactly as before the call, with
no partial or optimistic mutation. -/
theorem takeClass_service_error_propagates (st : LessonState) (user : Option User)
    (lessonId : String) (e : String) (L0 : Lesson Int)
    (h : st.lessons.find? (fun lesson =>
      decide (lesson.id = lessonId) && decide (lesson.type = LessonType.Available)) = some L0) :
    takeClass st user lessonId (Except.error e) = Except.error e := by
  unfold takeClass
  rw [h]

/-- Witness for C3: a failing service call on a claimable lesson surfaces the
service error verbatim. -/
theorem takeClass_service_error_propagates_witness :
    takeClass ⟨[availableLesson], false, none⟩ none "L7" (Except.error "network down") =
      Except.error "network down" :=
  takeClass_service_error_propagates ⟨[availableLesson], false, none⟩ none "L7" "network down"
    availableLesson (by decide)

/-- C4: the Dashboard month-window filter resolves index `idx` to the month
`startOfMonth(now) − (5 − idx)` months when `idx ≤ 5` and
`startOfMonth(now) + (idx − 5)` months when `idx ≥ 6`, then filters by that
month's full range (`getMonthRange`); index 5 is the current month, index 0
five months back, index 11 six months forward. -/
theorem month_window_resolution :
    (∀ (idx : Int) (now : MInstant), idx ≤ 5 →
      monthWindowTarget idx now = ⟨(startOfMonth now).month - (5 - idx), 0⟩) ∧
    (∀ (idx : Int) (now : MInstant), 6 ≤ idx →
      monthWindowTarget idx now = ⟨(startOfMonth now).month + (idx - 5), 0⟩) ∧
    (∀ (lessons : List (Lesson MInstant)) (idx : Int) (now : MInstant),
      applyMonthFilter lessons idx now =
        filterLessonsByDateRange lessons (startOfMonth (monthWindowTarget idx now))
          (endOfMonth (monthWindowTarget idx now))) ∧
    (∀ now : MInstant, monthWindowTarget 5 now = startOfMonth now) ∧
    (∀ now : MInstant, monthWindowTarget 0 now = subMonths (startOfMonth now) 5) ∧
    (∀ now : MInstant, monthWindowTarget 11 now = addMonths (startOfMonth now) 6) := by
  refine ⟨?_, ?_, ?_, ?_, ?_, ?_⟩
  · intro idx now h
    simp [monthWindowTarget, MONTH_FILTER.PAST_MONTHS_THRESHOLD, MONTH_FILTER.MONTHS_BACK,
      subMonths, startOfMonth, h]
  · intro idx now h
    have hn : ¬ idx ≤ (5 : Int) := by omega
    simp [monthWindowTarget, MONTH_FILTER.PAST_MONTHS_THRESHOLD, MONTH_FILTER.MONTHS_BACK,
      addMonths, startOfMonth, hn]
  · intro lessons idx now
    rfl
  · intro now
    simp [monthWindowTarget, MONTH_FILTER.PAST_MONTHS_THRESHOLD, MONTH_FILTER.MONTHS_BACK,
      subMonths, startOfMonth]
  · intro now
    simp [monthWindowTarget, MONTH_FILTER.PAST_MONTHS_THRESHOLD, MONTH_FILTER.MONTHS_BACK]
  · intro now
    norm_num [monthWindowTarget, MONTH_FILTER.PAST_MONTHS_THRESHOLD, MONTH_FILTER.MONTHS_BACK]

/-- Witness for C4: with the current month numbered 7, index 3 resolves two
months back and index 8 three months forward. -/
theorem month_window_resolution_witness :
    monthWindowTarget 3 ⟨7, 0⟩ = ⟨5, 0⟩ ∧ monthWindowTarget 8 ⟨7, 0⟩ = ⟨10, 0⟩ := by
  have h1 := month_window_resolution.1 3 ⟨7, 0⟩ (by decide)
  have h2 := month_window_resolution.2.1 8 ⟨7, 0⟩ (by decide)
  refine ⟨?_, ?_⟩
  · rw [h1]; decide
  · rw [h2]; decide

/-- C5: the store's `'Today'` selector keeps a lesson exactly when its date
lies in `getTodayRange` — `start ≤ date ≤ end` with `start` today at
00:00:00.000 and `end` today at 23:59:59.999, both boundaries included —
for lessons of any `type` (the predicate never consults `type`). -/
theorem today_selector_closed_range_iff (lessons : List (Lesson Int)) (L : Lesson Int)
    (now : Int) :
    L ∈ filteredLessons lessons (some LessonFilterType.Today) none now ↔
      L ∈ lessons ∧ (getTodayRange now).1 ≤ L.date ∧ L.date ≤ (getTodayRange now).2 := by
  simp only [filteredLessons, List.mem_filter, Bool.and_eq_true, decide_eq_true_eq,
    getTodayRange, endOfDay, msPerDay]
  constructor
  · rintro ⟨hm, h1, h2⟩
    exact ⟨hm, h1, by omega⟩
  · rintro ⟨hm, h1, h2⟩
    exact ⟨hm, h1, by omega⟩

/-- C6: filtering by a concrete lesson type returns exactly the lessons whose
`type` equals it (membership characterisation), preserves relative order (the
output is a sublist of the input), and is idempotent. -/
theorem type_filter_exact_ordered_idempotent (lessons : List (Lesson Int)) (t : LessonType)
    (now : Int) :
    (∀ L, L ∈ filteredLessons lessons (some (LessonFilterType.ofType t)) none now ↔
      L ∈ lessons ∧ L.type = t) ∧
    (filteredLessons lessons (some (LessonFilterType.ofType t)) none now).Sublist lessons ∧
    filteredLessons (filteredLessons lessons (some (LessonFilterType.ofType t)) none now)
        (some (LessonFilterType.ofType t)) none now =
      filteredLessons lessons (some (LessonFilterType.ofType t)) none now := by
  refine ⟨?_, ?_, ?_⟩
  · intro L
    simp [filteredLessons, List.mem_filter]
  · simp only [filteredLessons]
    exact List.filter_sublist lessons
  · simp only [filteredLessons]
    rw [List.filter_eq_self]
    intro a ha
    exact (List.mem_filter.mp ha).2

/-- C7: both date-range filters — the utility `filterLessonsByDateRange` and
the store's `dateRange` branch — keep a lesson exactly when
`start ≤ date ∧ date ≤ end`, so for a range with `start ≤ end` a lesson
dated exactly at the start or exactly at the end is included. -/
theorem date_range_inclusive (lessons : List (Lesson Int)) (L : Lesson Int)
    (s e now : Int) :
    (L ∈ filterLessonsByDateRange lessons s e ↔ L ∈ lessons ∧ s ≤ L.date ∧ L.date ≤ e) ∧
    (L ∈ filteredLessons lessons none (some (s, e)) now ↔
      L ∈ lessons ∧ s ≤ L.date ∧ L.date ≤ e) ∧
    (L ∈ lessons → s ≤ e → L.date = s ∨ L.date = e →
      L ∈ filterLessonsByDateRange lessons s e) := by
  refine ⟨?_, ?_, ?_⟩
  · simp [filterLessonsByDateRange, List.mem_filter, and_assoc]
  · simp [filteredLessons, List.mem_filter, and_assoc]
  · intro hm hse hor
    simp only [filterLessonsByDateRange, List.mem_filter, Bool.and_eq_true, decide_eq_true_eq]
    rcases hor with hd | hd
    · exact ⟨hm, by omega, by omega⟩
    · exact ⟨hm, by omega, by omega⟩

/-- Witness for C7: a lesson dated exactly at the start of the range `[0, 5]`
is kept by the date-range filter. -/
theorem date_range_inclusive_witness :
    sampleLesson ∈ filterLessonsByDateRange [sampleLesson] 0 5 :=
  (date_range_inclusive [sampleLesson] sampleLesson 0 5 0).2.2
    (List.mem_singleton.mpr rfl) (by decide) (Or.inl rfl)

/-- C8: `fetchLessonsData` first enters the fetching state with the error
slot cleared and the collection untouched; a successful response replaces the
whole collection and returns to idle with no error; a failed response records
the message, returns to idle, and leaves the previous collection unchanged. -/
theorem fetchLessonsData_lifecycle (st : LessonState) (data : List (Lesson Int))
    (msg : String) :
    (fetchPending st).loading = true ∧ (fetchPending st).error = none ∧
    (fetchPending st).lessons = st.lessons ∧
    fetchLessonsData st (Except.ok data) = ⟨data, false, none⟩ ∧
    fetchLessonsData st (Except.error msg) = ⟨st.lessons, false, some msg⟩ :=
  ⟨rfl, rfl, rfl, rfl, rfl⟩

/-- C9: every state reachable from the initial Dashboard state through the
filter-selection actions satisfies the mutual-exclusion invariant (month
index and explicit date range never both set); moreover selecting any month
clears the date range, the clear sentinel resets both slots, and selecting a
complete date range clears the month. -/
theorem filter_selection_mutual_exclusion :
    (∀ acts : List FilterAction,
      filterMutex (acts.foldl applyFilterAction initialFilterSel)) ∧
    (∀ (st : FilterSel) (i : Int), (handleMonthChange st i).dateRange = none) ∧
    (∀ st : FilterSel, handleMonthChange st DATE_FILTER.CLEAR_MONTH_INDEX = initialFilterSel) ∧
    (∀ (st : FilterSel) (a b : Int),
      handleDateRangeChange st (some a) (some b) = ⟨none, some (a, b)⟩) := by
  have hstep : ∀ (st : FilterSel) (a : FilterAction), filterMutex (applyFilterAction st a) := by
    intro st a
    cases a with
    | monthChange i =>
      by_cases hi : i = DATE_FILTER.CLEAR_MONTH_INDEX <;>
        simp [applyFilterAction, handleMonthChange, filterMutex, hi]
    | dateRangeChange s e =>
      cases s <;> cases e <;>
        simp [applyFilterAction, handleDateRangeChange, filterMutex]
  refine ⟨?_, ?_, ?_, ?_⟩
  · have H : ∀ (acts : List FilterAction) (st : FilterSel), filterMutex st →
        filterMutex (acts.foldl applyFilterAction st) := by
      intro acts
      induction acts with
      | nil => intro st h; exact h
      | cons a as ih => intro st _; exact ih _ (hstep st a)
    exact fun acts => H acts initialFilterSel (Or.inl rfl)
  · intro st i
    by_cases hi : i = DATE_FILTER.CLEAR_MONTH_INDEX <;> simp [handleMonthChange, hi]
  · intro st
    simp [handleMonthChange, initialFilterSel]
  · intro st a b
    rfl

/-- C10: the store's half-open `'Today'` filter and the utility
`filterTodayLessons` (closed range up to 23:59:59.999) agree on every lesson
collection: at millisecond precision `date < startOfTomorrow` and
`date ≤ endOfDay` coincide. -/
theorem store_today_equals_filterTodayLessons (lessons : List (Lesson Int)) (now : Int) :
    filteredLessons lessons (some LessonFilterType.Today) none now =
      filterTodayLessons lessons now := by
  simp only [filteredLessons, filterTodayLessons, filterLessonsByDateRange, getTodayRange,
    endOfDay]
  apply List.filter_congr
  intro a _
  congr 1
  refine decide_eq_decide.mpr ?_
  unfold msPerDay
  omega
